import Mathlib

/-!
Verification of the training/inference orchestration of the
CarND-Semantic-Segmentation repository (`main.py`).

The session (`sess.run`) and the batch generator are external collaborators;
they are embedded as explicit oracles over abstract state types:
`σ` is the session/model-parameter state, `ρ` is the generator's randomness
state, `β` is the type of one batch of data (images or labels).
The observable behaviour of the loop is recorded as a trace of events.
-/

namespace CarND

/-- Module-level constant `NUM_EPOCHS = 50` of `main.py`. -/
def NUM_EPOCHS : Nat := 50

/-- Module-level constant `BATCH_SIZE = 16` of `main.py`. -/
def BATCH_SIZE : Nat := 16

/-- Module-level constant `KP_VALUE = 0.5` of `main.py` (dropout keep probability). -/
def KP_VALUE : ℚ := 1/2

/-- Module-level constant `LR_VALUE = 0.001` of `main.py` (learning rate). -/
def LR_VALUE : ℚ := 1/1000

/-- The feed dictionary passed to `sess.run` in `train_nn`: it binds
`input_image` to `X_batch`, `correct_label` to `y_batch`, `keep_prob` to
`KP_VALUE` and `learning_rate` to `LR_VALUE`. -/
structure Feed (β : Type) where
  input_image : β
  correct_label : β
  keep_prob : ℚ
  learning_rate : ℚ
deriving DecidableEq, Repr

/-- Observable events of a run of `train_nn`:
`genCall b` is an invocation `get_batches_fn(batch_size)`,
`optStep f l` is one `sess.run([cross_entropy_loss, train_op], feed_dict=f)`
returning loss `l`, and `report e l` is the per-epoch pair of print statements
for the epoch number and the cumulative loss
(`e` is the 1-based epoch number as printed). -/
inductive Event (β : Type) where
  | genCall : Nat → Event β
  | optStep : Feed β → ℚ → Event β
  | report : Nat → ℚ → Event β
deriving DecidableEq, Repr

/-- The feed built for one batch: images, labels and the two fixed hyperparameters. -/
def mkFeed {β : Type} (X y : β) : Feed β :=
  { input_image := X, correct_label := y, keep_prob := KP_VALUE, learning_rate := LR_VALUE }

/-- The feeds of the optimization-step events of a trace, in order. -/
def feedsOf {β : Type} (evs : List (Event β)) : List (Feed β) :=
  evs.filterMap fun e =>
    match e with
    | .optStep f _ => some f
    | _ => none

/-- The number of optimization steps (`sess.run` of `train_op`) in a trace. -/
def optStepCount {β : Type} (evs : List (Event β)) : Nat :=
  (feedsOf evs).length

/-- The reported (epoch number, cumulative loss) pairs of a trace, in order. -/
def reportsOf {β : Type} (evs : List (Event β)) : List (Nat × ℚ) :=
  evs.filterMap fun e =>
    match e with
    | .report i q => some (i, q)
    | _ => none

/-- The batch sizes of the `get_batches_fn` invocations of a trace, in order. -/
def genCallsOf {β : Type} (evs : List (Event β)) : List Nat :=
  evs.filterMap fun e =>
    match e with
    | .genCall b => some b
    | _ => none

section TrainNN

variable {σ ρ β : Type}

/-- The inner loop of `train_nn`:
`for X_batch, y_batch in get_batches_fn(batch_size): loss, _ = sess.run(...); total_loss += loss`.
Takes the already-yielded batch list, the session state and the running
`total_loss` accumulator; returns the final accumulator, the final session
state and the events of the loop body. -/
def epochLoop (sessRun : σ → Feed β → ℚ × σ) :
    List (β × β) → σ → ℚ → ℚ × σ × List (Event β)
  | [], s, total => (total, s, [])
  | (X, y) :: rest, s, total =>
    let feed := mkFeed X y
    let res := sessRun s feed
    let rest' := epochLoop sessRun rest res.2 (total + res.1)
    (rest'.1, rest'.2.1, Event.optStep feed res.1 :: rest'.2.2)

/-- The per-step losses of one epoch: the loss returned by `sess.run` for each
successive batch, threading the session state. -/
def stepLosses (sessRun : σ → Feed β → ℚ × σ) :
    List (β × β) → σ → List ℚ
  | [], _ => []
  | (X, y) :: rest, s =>
    let (loss, s') := sessRun s (mkFeed X y)
    loss :: stepLosses sessRun rest s'

/-- The session state after feeding every batch of one epoch. -/
def epochFinal (sessRun : σ → Feed β → ℚ × σ) :
    List (β × β) → σ → σ
  | [], s => s
  | (X, y) :: rest, s =>
    epochFinal sessRun rest (sessRun s (mkFeed X y)).2

/-- The events of one epoch's inner loop: one `optStep` per yielded batch, in order. -/
def epochEvents (sessRun : σ → Feed β → ℚ × σ) :
    List (β × β) → σ → List (Event β)
  | [], _ => []
  | (X, y) :: rest, s =>
    let (loss, s') := sessRun s (mkFeed X y)
    Event.optStep (mkFeed X y) loss :: epochEvents sessRun rest s'

/-- The epoch loop of `train_nn`:
`for epoch in range(epochs): total_loss = 0; <inner loop>; print(...)`.
The first `Nat` is the remaining epoch count, the second the 0-based index of
the current epoch (for the printed `epoch + 1`). -/
def train_nnAux (sessRun : σ → Feed β → ℚ × σ)
    (get_batches_fn : Nat → ρ → List (β × β) × ρ) (batch_size : Nat) :
    Nat → Nat → σ → ρ → σ × ρ × List (Event β)
  | 0, _, s, r => (s, r, [])
  | n + 1, epoch, s, r =>
    let gb := get_batches_fn batch_size r
    let el := epochLoop sessRun gb.1 s 0
    let rest := train_nnAux sessRun get_batches_fn batch_size n (epoch + 1) el.2.1 gb.2
    (rest.1, rest.2.1,
      Event.genCall batch_size :: el.2.2 ++ Event.report (epoch + 1) el.1 :: rest.2.2)

/-- `train_nn(sess, epochs, batch_size, get_batches_fn, ...)` of `main.py`:
runs `epochs` epochs, each drawing a fresh batch sequence from
`get_batches_fn(batch_size)`, performing one `sess.run` optimization step per
batch with the fixed `KP_VALUE` and `LR_VALUE` feeds, accumulating `total_loss`
from 0 each epoch and reporting it once per epoch.  Returns the final session
state, the final generator randomness state, and the event trace. -/
def train_nn (sessRun : σ → Feed β → ℚ × σ)
    (get_batches_fn : Nat → ρ → List (β × β) × ρ)
    (epochs batch_size : Nat) (s0 : σ) (r0 : ρ) : σ × ρ × List (Event β) :=
  train_nnAux sessRun get_batches_fn batch_size epochs 0 s0 r0

/-- The (session state, randomness state) pair at the start of epoch `i`
of a `train_nn` run (epoch 0 starts at `(s0, r0)`). -/
def stateAt (sessRun : σ → Feed β → ℚ × σ)
    (get_batches_fn : Nat → ρ → List (β × β) × ρ)
    (batch_size : Nat) (s0 : σ) (r0 : ρ) : Nat → σ × ρ
  | 0 => (s0, r0)
  | i + 1 =>
    let p := stateAt sessRun get_batches_fn batch_size s0 r0 i
    let gb := get_batches_fn batch_size p.2
    (epochFinal sessRun gb.1 p.1, gb.2)

/-- The batch sequence drawn by `get_batches_fn(batch_size)` at the start of epoch `i`. -/
def epochBatchesAt (sessRun : σ → Feed β → ℚ × σ)
    (get_batches_fn : Nat → ρ → List (β × β) × ρ)
    (batch_size : Nat) (s0 : σ) (r0 : ρ) (i : Nat) : List (β × β) :=
  (get_batches_fn batch_size (stateAt sessRun get_batches_fn batch_size s0 r0 i).2).1

/-- The per-step losses of epoch `i` of a `train_nn` run. -/
def epochLossesAt (sessRun : σ → Feed β → ℚ × σ)
    (get_batches_fn : Nat → ρ → List (β × β) × ρ)
    (batch_size : Nat) (s0 : σ) (r0 : ρ) (i : Nat) : List ℚ :=
  stepLosses sessRun (epochBatchesAt sessRun get_batches_fn batch_size s0 r0 i)
    (stateAt sessRun get_batches_fn batch_size s0 r0 i).1

end TrainNN

section TrainNNE

variable {σ ρ β ε : Type}

/-- The inner loop of `train_nn` under an exception-raising session:
`sess.run` may raise (return `Except.error`); `train_nn` has no
`try`/`except`, so the loop body stops at the first raise and the error
propagates.  Returns the events performed before the raise together with the
outcome (the final accumulator and session state, or the error). -/
def epochLoopE (sessRun : σ → Feed β → Except ε (ℚ × σ)) :
    List (β × β) → σ → ℚ → List (Event β) × Except ε (ℚ × σ)
  | [], s, total => ([], Except.ok (total, s))
  | (X, y) :: rest, s, total =>
    let feed := mkFeed X y
    match sessRun s feed with
    | Except.error e => ([], Except.error e)
    | Except.ok (loss, s') =>
      let rest' := epochLoopE sessRun rest s' (total + loss)
      (Event.optStep feed loss :: rest'.1, rest'.2)

/-- The epoch loop of `train_nn` under an exception-raising session:
an uncaught error in the inner loop aborts the remaining epochs. -/
def train_nnAuxE (sessRun : σ → Feed β → Except ε (ℚ × σ))
    (get_batches_fn : Nat → ρ → List (β × β) × ρ) (batch_size : Nat) :
    Nat → Nat → σ → ρ → List (Event β) × Except ε (σ × ρ)
  | 0, _, s, r => ([], Except.ok (s, r))
  | n + 1, epoch, s, r =>
    let gb := get_batches_fn batch_size r
    let el := epochLoopE sessRun gb.1 s 0
    match el.2 with
    | Except.error e => (Event.genCall batch_size :: el.1, Except.error e)
    | Except.ok (total, s') =>
      let rest := train_nnAuxE sessRun get_batches_fn batch_size n (epoch + 1) s' gb.2
      (Event.genCall batch_size :: el.1 ++ Event.report (epoch + 1) total :: rest.1, rest.2)

/-- `train_nn` of `main.py` under an exception-raising session oracle:
identical control flow to `train_nn`, with `sess.run` allowed to fail. -/
def train_nnE (sessRun : σ → Feed β → Except ε (ℚ × σ))
    (get_batches_fn : Nat → ρ → List (β × β) × ρ)
    (epochs batch_size : Nat) (s0 : σ) (r0 : ρ) :
    List (Event β) × Except ε (σ × ρ) :=
  train_nnAuxE sessRun get_batches_fn batch_size epochs 0 s0 r0

end TrainNNE

section BatchGen

variable {I L : Type}

/-- Successive slices `l[i : i + b]` for `i = 0, b, 2b, ...`, as produced by
the generator's `range(0, len, batch_size)` loop.  (For `b = 0` the slices
are singletons; the generator is only ever used with `b ≥ 1`.) -/
def chunkList (b : Nat) : List I → List (List I)
  | [] => []
  | x :: xs => (x :: xs.take (b - 1)) :: chunkList b (xs.drop (b - 1))
termination_by l => l.length
decreasing_by
  simp only [List.length_drop, List.length_cons]
  omega

/-- Modelled from the spec: `get_batches_fn`, the closure returned by
`helper.gen_batch_function` (`helper.py` is not under `src/`).  Per the spec,
each invocation "produces a lazy, finite sequence of (image-batch, label-batch)
pairs covering the entire training set exactly once, in a freshly randomized
order"; the fresh random order is the explicit permutation `perm` of the
training set `samples`, which the caller supplies together with a proof
obligation `perm.Perm samples` where needed.  The shuffled samples are sliced
into consecutive groups of `batch_size` and each group is split into its
image batch and its label batch. -/
def get_batches_fn_model (perm : List (I × L)) (batch_size : Nat) :
    List (List I × List L) :=
  (chunkList batch_size perm).map fun c => (c.map Prod.fst, c.map Prod.snd)

end BatchGen

section Layers

/-- The shape of a rank-4 tensor `(batch, height, width, channels)`. -/
structure TensorShape where
  n : Nat
  h : Nat
  w : Nat
  c : Nat
deriving DecidableEq, Repr

/-- Shape semantics of `tf.layers.conv2d(t, filters, kernel_size=1)`:
default stride 1 and padding VALID; with `kernel_size = 1` the spatial
dimensions are preserved and the channel count becomes `filters`. -/
def conv2dShape (t : TensorShape) (filters kernel : Nat) : TensorShape :=
  { n := t.n, h := t.h - (kernel - 1), w := t.w - (kernel - 1), c := filters }

/-- Shape semantics of
`tf.layers.conv2d_transpose(t, filters, kernel_size, strides=(sh, sw), padding=SAME)`:
with SAME padding the spatial dimensions are multiplied by the strides and the
channel count becomes `filters`. -/
def conv2dTransposeShape (t : TensorShape) (filters sh sw : Nat) : TensorShape :=
  { n := t.n, h := t.h * sh, w := t.w * sw, c := filters }

/-- Shape precondition of `tf.add(a, b)`: the operand shapes must match
(elementwise addition); the result has that common shape. -/
def addShape (a b : TensorShape) : Option TensorShape :=
  if a = b then some a else none

/-- Shape-level embedding of `layers(vgg_layer3_out, vgg_layer4_out, vgg_layer7_out, num_classes)`
of `main.py`: 1x1 convolution on layer 7, transpose convolution with
`filters = vgg_layer4_out` channel count at stride 2 then `tf.add` with layer 4,
transpose convolution with `filters = vgg_layer3_out` channel count at stride 2
then `tf.add` with layer 3, and a final stride-8 transpose convolution.
Returns `none` when an addition's shape precondition fails. -/
def layersShape (vgg_layer3_out vgg_layer4_out vgg_layer7_out : TensorShape)
    (num_classes : Nat) : Option TensorShape :=
  let fcn_layer8 := conv2dShape vgg_layer7_out num_classes 1
  let fcn_layer9 := conv2dTransposeShape fcn_layer8 vgg_layer4_out.c 2 2
  (addShape fcn_layer9 vgg_layer4_out).bind fun fcn_layer9_skip_from_layer4 =>
    let fcn_layer10 := conv2dTransposeShape fcn_layer9_skip_from_layer4 vgg_layer3_out.c 2 2
    (addShape fcn_layer10 vgg_layer3_out).map fun fcn_layer10_skip_from_layer3 =>
      conv2dTransposeShape fcn_layer10_skip_from_layer3 num_classes 8 8

end Layers

section Run

variable {σ ρ β γ ε : Type}

/-- Outcome classification for `run`: a configuration error raised before
training (missing dataset or model directories, with its message), or an
error raised by an optimization step during training. -/
inductive RunError (ε : Type) where
  | config : String → RunError ε
  | train : ε → RunError ε
deriving DecidableEq, Repr

/-- Modelled from the spec: `helper.save_inference_samples`
(`helper.py` is not under `src/`).  Per the spec, inference "runs one forward
pass through the trained model" for each test image, evaluating the logits
output tensor given a feed; evaluating an output tensor reads the model
parameters without mutating them, so the evaluation oracle takes the session
state read-only. -/
def save_inference_samples_model (sessEval : σ → β → γ) (s : σ)
    (test_images : List β) : List γ :=
  test_images.map (sessEval s)

/-- `run()` of `main.py`: first `tests.test_for_kitti_dataset(data_dir)`
(modelled from the spec as the fallible check `checkDataset`, since
`project_tests.py` is not under `src/`), then
`helper.maybe_download_pretrained_vgg(data_dir)` (modelled from the spec as
the fallible step `downloadModel`, since `helper.py` is not under `src/`);
only if both succeed does training run
(`train_nn(sess, NUM_EPOCHS, BATCH_SIZE, get_batches_fn, ...)`), followed by
inference over the test images with the trained session state.  Returns the
event trace and either the final session state paired with the inference
outputs, or the error that aborted the run. -/
def run (checkDataset : Except String Unit) (downloadModel : Except String Unit)
    (sessRun : σ → Feed β → Except ε (ℚ × σ)) (sessEval : σ → β → γ)
    (get_batches_fn : Nat → ρ → List (β × β) × ρ)
    (test_images : List β) (s0 : σ) (r0 : ρ) :
    List (Event β) × Except (RunError ε) (σ × List γ) :=
  match checkDataset with
  | Except.error m => ([], Except.error (RunError.config m))
  | Except.ok _ =>
    match downloadModel with
    | Except.error m => ([], Except.error (RunError.config m))
    | Except.ok _ =>
      let tr := train_nnE sessRun get_batches_fn NUM_EPOCHS BATCH_SIZE s0 r0
      match tr.2 with
      | Except.error e => (tr.1, Except.error (RunError.train e))
      | Except.ok (s, _) =>
        (tr.1, Except.ok (s, save_inference_samples_model sessEval s test_images))

end Run

/-! ### Concrete instances used to exercise the embedding -/

section Demo

/-- A deterministic session oracle for concrete runs: every optimization step
returns loss 1 and increments a step counter held in the session state. -/
def demoSessRun (s : Nat) (_f : Feed (List Nat)) : ℚ × Nat := (1, s + 1)

/-- A deterministic batch generator yielding the two batches of a 4-sample
dataset split with batch size 2, incrementing its randomness state. -/
def demoBatches4 (_b : Nat) (r : Nat) : List (List Nat × List Nat) × Nat :=
  ([([0, 1], [10, 11]), ([2, 3], [12, 13])], r + 1)

/-- A batch generator over a 2-sample dataset whose yielded order depends on
the threaded randomness state: successive invocations alternate the order. -/
def demoShuffleGen (_b : Nat) (r : Nat) : List (List Nat × List Nat) × Nat :=
  (if r % 2 = 0 then [([0], [10]), ([1], [11])] else [([1], [11]), ([0], [10])], r + 1)

/-- A fallible session oracle that raises (error code 7) on its second call:
the first call succeeds with loss 1, the call made in state 1 fails. -/
def demoFailRun (s : Nat) (_f : Feed (List Nat)) : Except Nat (ℚ × Nat) :=
  if s = 1 then Except.error 7 else Except.ok (1, s + 1)

/-- A fallible session oracle that never raises: loss 1, counted steps. -/
def demoOkRun (s : Nat) (_f : Feed (List Nat)) : Except Nat (ℚ × Nat) :=
  Except.ok (1, s + 1)

/-- A read-only evaluation oracle: records the session state it was read with
together with the image it was applied to. -/
def demoEval (s : Nat) (img : List Nat) : Nat × List Nat := (s, img)

end Demo

/-! ### Structural lemmas about the training loop -/

section LoopLemmas

variable {σ ρ β ε : Type}

@[simp] theorem feedsOf_nil : feedsOf ([] : List (Event β)) = [] := rfl

@[simp] theorem feedsOf_cons_optStep (f : Feed β) (l : ℚ) (evs : List (Event β)) :
    feedsOf (Event.optStep f l :: evs) = f :: feedsOf evs := rfl

@[simp] theorem feedsOf_cons_genCall (b : Nat) (evs : List (Event β)) :
    feedsOf (Event.genCall b :: evs) = feedsOf evs := rfl

@[simp] theorem feedsOf_cons_report (i : Nat) (q : ℚ) (evs : List (Event β)) :
    feedsOf (Event.report i q :: evs) = feedsOf evs := rfl

@[simp] theorem feedsOf_append (a b : List (Event β)) :
    feedsOf (a ++ b) = feedsOf a ++ feedsOf b := List.filterMap_append a b _

@[simp] theorem reportsOf_nil : reportsOf ([] : List (Event β)) = [] := rfl

@[simp] theorem reportsOf_cons_optStep (f : Feed β) (l : ℚ) (evs : List (Event β)) :
    reportsOf (Event.optStep f l :: evs) = reportsOf evs := rfl

@[simp] theorem reportsOf_cons_genCall (b : Nat) (evs : List (Event β)) :
    reportsOf (Event.genCall b :: evs) = reportsOf evs := rfl

@[simp] theorem reportsOf_cons_report (i : Nat) (q : ℚ) (evs : List (Event β)) :
    reportsOf (Event.report i q :: evs) = (i, q) :: reportsOf evs := rfl

@[simp] theorem reportsOf_append (a b : List (Event β)) :
    reportsOf (a ++ b) = reportsOf a ++ reportsOf b := List.filterMap_append a b _

@[simp] theorem genCallsOf_nil : genCallsOf ([] : List (Event β)) = [] := rfl

@[simp] theorem genCallsOf_cons_optStep (f : Feed β) (l : ℚ) (evs : List (Event β)) :
    genCallsOf (Event.optStep f l :: evs) = genCallsOf evs := rfl

@[simp] theorem genCallsOf_cons_genCall (b : Nat) (evs : List (Event β)) :
    genCallsOf (Event.genCall b :: evs) = b :: genCallsOf evs := rfl

@[simp] theorem genCallsOf_cons_report (i : Nat) (q : ℚ) (evs : List (Event β)) :
    genCallsOf (Event.report i q :: evs) = genCallsOf evs := rfl

@[simp] theorem genCallsOf_append (a b : List (Event β)) :
    genCallsOf (a ++ b) = genCallsOf a ++ genCallsOf b := List.filterMap_append a b _

theorem epochLoop_eq (sessRun : σ → Feed β → ℚ × σ) (batches : List (β × β)) :
    ∀ (s : σ) (t : ℚ),
      epochLoop sessRun batches s t =
        (t + (stepLosses sessRun batches s).sum, epochFinal sessRun batches s,
          epochEvents sessRun batches s) := by
  induction batches with
  | nil => intro s t; simp [epochLoop, stepLosses, epochFinal, epochEvents]
  | cons p rest ih =>
    obtain ⟨X, y⟩ := p
    intro s t
    rcases hsr : sessRun s (mkFeed X y) with ⟨loss, s'⟩
    simp [epochLoop, stepLosses, epochFinal, epochEvents, hsr, ih, add_assoc]

theorem feedsOf_epochEvents (sessRun : σ → Feed β → ℚ × σ) (batches : List (β × β)) :
    ∀ s : σ, feedsOf (epochEvents sessRun batches s) =
      batches.map fun p => mkFeed p.1 p.2 := by
  induction batches with
  | nil => intro s; rfl
  | cons p rest ih =>
    obtain ⟨X, y⟩ := p
    intro s
    rcases hsr : sessRun s (mkFeed X y) with ⟨loss, s'⟩
    simp [epochEvents, feedsOf, hsr] at ih ⊢
    exact ih s'

theorem reportsOf_epochEvents (sessRun : σ → Feed β → ℚ × σ) (batches : List (β × β)) :
    ∀ s : σ, reportsOf (epochEvents sessRun batches s) = [] := by
  induction batches with
  | nil => intro s; rfl
  | cons p rest ih =>
    obtain ⟨X, y⟩ := p
    intro s
    rcases hsr : sessRun s (mkFeed X y) with ⟨loss, s'⟩
    simp [epochEvents, reportsOf, hsr] at ih ⊢
    exact ih s'

theorem genCallsOf_epochEvents (sessRun : σ → Feed β → ℚ × σ) (batches : List (β × β)) :
    ∀ s : σ, genCallsOf (epochEvents sessRun batches s) = [] := by
  induction batches with
  | nil => intro s; rfl
  | cons p rest ih =>
    obtain ⟨X, y⟩ := p
    intro s
    rcases hsr : sessRun s (mkFeed X y) with ⟨loss, s'⟩
    simp [epochEvents, genCallsOf, hsr] at ih ⊢
    exact ih s'

theorem stateAt_shift (sessRun : σ → Feed β → ℚ × σ)
    (gbf : Nat → ρ → List (β × β) × ρ) (b : Nat) (s : σ) (r : ρ) :
    ∀ i : Nat,
      stateAt sessRun gbf b s r (i + 1) =
        stateAt sessRun gbf b (epochFinal sessRun (gbf b r).1 s) (gbf b r).2 i := by
  intro i
  induction i with
  | zero => simp [stateAt]
  | succ i ih =>
    show (let (s1, r1) := stateAt sessRun gbf b s r (i + 1);
      let (batches, r') := gbf b r1
      (epochFinal sessRun batches s1, r')) = _
    rw [ih]
    rfl

theorem train_nnAux_reports (sessRun : σ → Feed β → ℚ × σ)
    (gbf : Nat → ρ → List (β × β) × ρ) (b : Nat) (n : Nat) :
    ∀ (e0 : Nat) (s : σ) (r : ρ),
      reportsOf (train_nnAux sessRun gbf b n e0 s r).2.2 =
        (List.range n).map fun i =>
          (e0 + i + 1,
            (stepLosses sessRun (gbf b (stateAt sessRun gbf b s r i).2).1
              (stateAt sessRun gbf b s r i).1).sum) := by
  induction n with
  | zero => intro e0 s r; rfl
  | succ n ih =>
    intro e0 s r
    rcases hg : gbf b r with ⟨batches, r'⟩
    have hloop := epochLoop_eq sessRun batches s 0
    simp only [train_nnAux, hg, hloop]
    rw [List.range_succ_eq_map]
    simp only [List.map_cons, List.map_map, reportsOf_cons_genCall, reportsOf_append,
      reportsOf_cons_report, reportsOf_epochEvents sessRun batches s, List.nil_append]
    rw [ih (e0 + 1) (epochFinal sessRun batches s) r']
    have h0 : stateAt sessRun gbf b s r 0 = (s, r) := rfl
    refine congrArg₂ List.cons ?_ ?_
    · simp [h0, hg]
    · apply List.map_congr_left
      intro i _
      have hshift := stateAt_shift sessRun gbf b s r i
      rw [hg] at hshift
      simp only [Function.comp_apply, hshift]
      refine congrArg₂ Prod.mk ?_ rfl
      omega

theorem feeds_of_train_nnAux (sessRun : σ → Feed β → ℚ × σ)
    (gbf : Nat → ρ → List (β × β) × ρ) (b : Nat) (n : Nat) :
    ∀ (e0 : Nat) (s : σ) (r : ρ) (f : Feed β) (l : ℚ),
      Event.optStep f l ∈ (train_nnAux sessRun gbf b n e0 s r).2.2 →
        f.keep_prob = KP_VALUE ∧ f.learning_rate = LR_VALUE := by
  induction n with
  | zero => intro e0 s r f l h; simp [train_nnAux] at h
  | succ n ih =>
    intro e0 s r f l h
    rcases hg : gbf b r with ⟨batches, r'⟩
    have hloop := epochLoop_eq sessRun batches s 0
    simp only [train_nnAux, hg, hloop, List.mem_cons, List.mem_append] at h
    rcases h with (h | h) | (h | h)
    · exact absurd h (by simp)
    · have hf : f ∈ feedsOf (epochEvents sessRun batches s) :=
        List.mem_filterMap.mpr ⟨Event.optStep f l, h, rfl⟩
      rw [feedsOf_epochEvents] at hf
      obtain ⟨p, _, hfeq⟩ := List.mem_map.mp hf
      subst hfeq
      exact ⟨rfl, rfl⟩
    · exact absurd h (by simp)
    · exact ih (e0 + 1) (epochFinal sessRun batches s) r' f l h

theorem genCalls_of_train_nnAux (sessRun : σ → Feed β → ℚ × σ)
    (gbf : Nat → ρ → List (β × β) × ρ) (b : Nat) (n : Nat) :
    ∀ (e0 : Nat) (s : σ) (r : ρ),
      genCallsOf (train_nnAux sessRun gbf b n e0 s r).2.2 = List.replicate n b := by
  induction n with
  | zero => intro e0 s r; rfl
  | succ n ih =>
    intro e0 s r
    rcases hg : gbf b r with ⟨batches, r'⟩
    have hloop := epochLoop_eq sessRun batches s 0
    simp only [train_nnAux, hg, hloop]
    simp only [genCallsOf, List.filterMap_cons, List.filterMap_append]
    have hb := genCallsOf_epochEvents sessRun batches s
    simp only [genCallsOf] at hb
    have := ih (e0 + 1) (epochFinal sessRun batches s) r'
    simp only [genCallsOf] at this
    simp [hb, this, List.replicate_succ]

end LoopLemmas

/-! ### Lemmas about the fallible loop -/

section FallibleLemmas

variable {σ ρ β ε : Type}

theorem epochLoopE_feeds (sessRun : σ → Feed β → Except ε (ℚ × σ))
    (batches : List (β × β)) :
    ∀ (s : σ) (t : ℚ), ∃ k, k ≤ batches.length ∧
      feedsOf (epochLoopE sessRun batches s t).1 =
        (batches.take k).map (fun p => mkFeed p.1 p.2) ∧
      (∀ v, (epochLoopE sessRun batches s t).2 = Except.ok v → k = batches.length) := by
  induction batches with
  | nil => intro s t; exact ⟨0, Nat.le_refl 0, rfl, fun v _ => rfl⟩
  | cons p rest ih =>
    obtain ⟨X, y⟩ := p
    intro s t
    cases hsr : sessRun s (mkFeed X y) with
    | error e =>
      refine ⟨0, Nat.zero_le _, ?_, ?_⟩
      · simp [epochLoopE, hsr]
      · intro v hv
        simp [epochLoopE, hsr] at hv
    | ok v =>
      obtain ⟨loss, s'⟩ := v
      obtain ⟨k, hk, hfeeds, hok⟩ := ih s' (t + loss)
      refine ⟨k + 1, by simpa using hk, ?_, ?_⟩
      · simp [epochLoopE, hsr, hfeeds]
      · intro w hw
        simp only [epochLoopE, hsr] at hw
        simpa using congrArg Nat.succ (hok w hw)

theorem train_nnAuxE_error_stops (sessRun : σ → Feed β → Except ε (ℚ × σ))
    (gbf : Nat → ρ → List (β × β) × ρ) (b : Nat) (n : Nat) :
    ∀ (e0 : Nat) (s : σ) (r : ρ) (e : ε),
      (train_nnAuxE sessRun gbf b n e0 s r).2 = Except.error e →
      ∀ m, n ≤ m →
        train_nnAuxE sessRun gbf b m e0 s r = train_nnAuxE sessRun gbf b n e0 s r := by
  induction n with
  | zero => intro e0 s r e h; simp [train_nnAuxE] at h
  | succ n ih =>
    intro e0 s r e h m hm
    obtain ⟨m', rfl⟩ : ∃ m', m = m' + 1 := ⟨m - 1, by omega⟩
    have hm' : n ≤ m' := by omega
    cases hel : (epochLoopE sessRun (gbf b r).1 s 0).2 with
    | error e' =>
      simp [train_nnAuxE, hel]
    | ok v =>
      obtain ⟨total, s'⟩ := v
      simp only [train_nnAuxE, hel] at h ⊢
      rw [ih (e0 + 1) s' (gbf b r).2 e h m' hm']

end FallibleLemmas

/-! ### Lemmas about the batch generator model -/

section BatchGenLemmas

variable {I L : Type}

theorem chunkList_join (b : Nat) (l : List I) :
    (chunkList b l).flatten = l := by
  induction l using chunkList.induct b with
  | case1 => simp [chunkList]
  | case2 x xs ih =>
    simp only [chunkList, List.flatten_cons, ih]
    simp [List.take_append_drop]

theorem get_batches_fn_model_flatten (perm : List (I × L)) (b : Nat) :
    ((get_batches_fn_model perm b).map fun p => p.1.zip p.2).flatten = perm := by
  have hmap : (get_batches_fn_model perm b).map (fun p => p.1.zip p.2) =
      chunkList b perm := by
    rw [get_batches_fn_model, List.map_map]
    refine List.map_congr_left ?_ |>.trans (List.map_id _)
    intro c _
    simp [Function.comp, List.zip_map']
  rw [hmap, chunkList_join]

end BatchGenLemmas

/-! ### Claims -/

/-- C1: for a run configured with `epochs = 1` and `batch_size = 2` whose batch
generator invocation yields exactly 2 batches (as for a 4-sample dataset),
`train_nn` performs exactly 2 optimization steps — one `sess.run` of the
training operation per yielded batch — and reports exactly one loss value for
the epoch. -/
theorem C1_two_steps_one_report {σ ρ β : Type} (sessRun : σ → Feed β → ℚ × σ)
    (get_batches_fn : Nat → ρ → List (β × β) × ρ) (s0 : σ) (r0 : ρ)
    (h : (get_batches_fn 2 r0).1.length = 2) :
    optStepCount (train_nn sessRun get_batches_fn 1 2 s0 r0).2.2 = 2 ∧
    (reportsOf (train_nn sessRun get_batches_fn 1 2 s0 r0).2.2).length = 1 := by
  constructor
  · have hloop := epochLoop_eq sessRun (get_batches_fn 2 r0).1 s0 0
    simp [optStepCount, train_nn, train_nnAux, hloop,
      feedsOf_epochEvents sessRun (get_batches_fn 2 r0).1 s0, h]
  · have hr := train_nnAux_reports sessRun get_batches_fn 2 1 0 s0 r0
    simp [train_nn, hr]

/-- Witness for C1: the 4-sample dataset split into two batches of size 2. -/
theorem C1_two_steps_one_report_witness :
    (demoBatches4 2 0).1.length = 2 ∧
    (optStepCount (train_nn demoSessRun demoBatches4 1 2 0 0).2.2 = 2 ∧
      (reportsOf (train_nn demoSessRun demoBatches4 1 2 0 0).2.2).length = 1) :=
  ⟨by decide, C1_two_steps_one_report demoSessRun demoBatches4 0 0 (by decide)⟩

/-- C3: for every epoch, `train_nn` reports exactly one cumulative loss value —
one `(epoch + 1, total)` pair per epoch, in epoch order — and the reported
value is the sum of that epoch's per-batch losses alone: the accumulator
restarts at 0 each epoch, so losses from earlier epochs do not carry over. -/
theorem C3_one_cumulative_loss_per_epoch {σ ρ β : Type} (sessRun : σ → Feed β → ℚ × σ)
    (get_batches_fn : Nat → ρ → List (β × β) × ρ)
    (epochs b : Nat) (s0 : σ) (r0 : ρ) :
    reportsOf (train_nn sessRun get_batches_fn epochs b s0 r0).2.2 =
      (List.range epochs).map
        (fun i => (i + 1, (epochLossesAt sessRun get_batches_fn b s0 r0 i).sum)) := by
  have hr := train_nnAux_reports sessRun get_batches_fn b epochs 0 s0 r0
  simpa [train_nn, epochLossesAt, epochBatchesAt] using hr

/-- C4: every optimization step of every epoch is fed the module-level
constants `KP_VALUE` (dropout keep probability) and `LR_VALUE` (learning
rate); these and the run entry point's `NUM_EPOCHS` and `BATCH_SIZE` are
fixed compile-time constants, not runtime inputs. -/
theorem C4_hyperparameters_constant {σ ρ β : Type} (sessRun : σ → Feed β → ℚ × σ)
    (get_batches_fn : Nat → ρ → List (β × β) × ρ)
    (epochs b : Nat) (s0 : σ) (r0 : ρ) (f : Feed β) (l : ℚ)
    (h : Event.optStep f l ∈ (train_nn sessRun get_batches_fn epochs b s0 r0).2.2) :
    f.keep_prob = KP_VALUE ∧ f.learning_rate = LR_VALUE ∧
    KP_VALUE = 1/2 ∧ LR_VALUE = 1/1000 ∧ NUM_EPOCHS = 50 ∧ BATCH_SIZE = 16 := by
  obtain ⟨h1, h2⟩ := feeds_of_train_nnAux sessRun get_batches_fn b epochs 0 s0 r0 f l h
  exact ⟨h1, h2, rfl, rfl, rfl, rfl⟩

/-- Witness for C4: the first optimization step of a concrete run. -/
theorem C4_hyperparameters_constant_witness :
    Event.optStep (mkFeed [0, 1] [10, 11]) 1 ∈
      (train_nn demoSessRun demoBatches4 1 2 0 0).2.2 ∧
    ((mkFeed ([0, 1] : List Nat) [10, 11]).keep_prob = KP_VALUE ∧
      (mkFeed ([0, 1] : List Nat) [10, 11]).learning_rate = LR_VALUE ∧
      KP_VALUE = 1/2 ∧ LR_VALUE = 1/1000 ∧ NUM_EPOCHS = 50 ∧ BATCH_SIZE = 16) :=
  ⟨by simp [train_nn, train_nnAux, epochLoop, demoBatches4, demoSessRun],
    C4_hyperparameters_constant demoSessRun demoBatches4 1 2 0 0 _ 1
      (by simp [train_nn, train_nnAux, epochLoop, demoBatches4, demoSessRun])⟩

/-- C10: with `epochs = 0`, `train_nn` returns at once: the model-parameter
state and the generator state are unchanged and the trace is empty — no
optimization step, no batch-generator invocation, no reported loss. -/
theorem C10_zero_epochs_noop {σ ρ β : Type} (sessRun : σ → Feed β → ℚ × σ)
    (get_batches_fn : Nat → ρ → List (β × β) × ρ) (b : Nat) (s0 : σ) (r0 : ρ) :
    train_nn sessRun get_batches_fn 0 b s0 r0 = (s0, r0, []) ∧
    optStepCount (train_nn sessRun get_batches_fn 0 b s0 r0).2.2 = 0 ∧
    genCallsOf (train_nn sessRun get_batches_fn 0 b s0 r0).2.2 = [] ∧
    reportsOf (train_nn sessRun get_batches_fn 0 b s0 r0).2.2 = [] :=
  ⟨rfl, rfl, rfl, rfl⟩

/-- C8: `train_nn` invokes the Batch Generator afresh at the start of every
epoch — exactly one `get_batches_fn(batch_size)` call per epoch — with the
generator's randomness state threaded between invocations, and two successive
epochs can yield different batch orderings: exhibited on a generator whose
yielded order depends on the threaded randomness state. -/
theorem C8_generator_fresh_each_epoch {σ ρ β : Type} (sessRun : σ → Feed β → ℚ × σ)
    (get_batches_fn : Nat → ρ → List (β × β) × ρ)
    (epochs b : Nat) (s0 : σ) (r0 : ρ) :
    genCallsOf (train_nn sessRun get_batches_fn epochs b s0 r0).2.2 =
      List.replicate epochs b ∧
    ∃ (sessRun' : Nat → Feed (List Nat) → ℚ × Nat)
      (gbf' : Nat → Nat → List (List Nat × List Nat) × Nat) (s r : Nat),
      epochBatchesAt sessRun' gbf' 2 s r 0 ≠ epochBatchesAt sessRun' gbf' 2 s r 1 :=
  ⟨genCalls_of_train_nnAux sessRun get_batches_fn b epochs 0 s0 r0,
    demoSessRun, demoShuffleGen, 0, 0, by decide⟩

/-- C5: an error raised by an optimization step propagates out of `train_nn`
uncaught — the run's outcome is that error — and aborts the run: configuring
any larger epoch count from the same start yields the very same events and the
same error (no later step executes), and within any epoch the batches fed to
`sess.run` are an in-order, at-most-once prefix of the yielded batches (no
batch is retried; when the epoch succeeds, all of them are fed). -/
theorem C5_step_error_fatal {σ ρ β ε : Type} (sessRun : σ → Feed β → Except ε (ℚ × σ))
    (get_batches_fn : Nat → ρ → List (β × β) × ρ)
    (epochs b : Nat) (s0 : σ) (r0 : ρ) (e : ε)
    (h : (train_nnE sessRun get_batches_fn epochs b s0 r0).2 = Except.error e) :
    (∀ m, epochs ≤ m →
      train_nnE sessRun get_batches_fn m b s0 r0 =
        train_nnE sessRun get_batches_fn epochs b s0 r0) ∧
    (∀ (batches : List (β × β)) (s : σ) (t : ℚ), ∃ k, k ≤ batches.length ∧
      feedsOf (epochLoopE sessRun batches s t).1 =
        (batches.take k).map (fun p => mkFeed p.1 p.2) ∧
      (∀ v, (epochLoopE sessRun batches s t).2 = Except.ok v → k = batches.length)) :=
  ⟨train_nnAuxE_error_stops sessRun get_batches_fn b epochs 0 s0 r0 e h,
    fun batches s t => epochLoopE_feeds sessRun batches s t⟩

/-- Witness for C5: a session oracle whose second optimization step raises. -/
theorem C5_step_error_fatal_witness :
    (train_nnE demoFailRun demoBatches4 1 2 0 0).2 = Except.error 7 ∧
    ((∀ m, 1 ≤ m →
      train_nnE demoFailRun demoBatches4 m 2 0 0 =
        train_nnE demoFailRun demoBatches4 1 2 0 0) ∧
    (∀ (batches : List (List Nat × List Nat)) (s : Nat) (t : ℚ), ∃ k, k ≤ batches.length ∧
      feedsOf (epochLoopE demoFailRun batches s t).1 =
        (batches.take k).map (fun p => mkFeed p.1 p.2) ∧
      (∀ v, (epochLoopE demoFailRun batches s t).2 = Except.ok v → k = batches.length))) :=
  ⟨rfl, C5_step_error_fatal demoFailRun demoBatches4 1 2 0 0 7 rfl⟩

/-- C6: a configuration error — the dataset check failing, or the pretrained
model download failing after the check passed — aborts `run` before any
training: the outcome is the configuration error carrying its descriptive
message and the trace is empty, so no optimization step was performed. -/
theorem C6_config_errors_abort_before_training {σ ρ β γ ε : Type}
    (checkDataset downloadModel : Except String Unit)
    (sessRun : σ → Feed β → Except ε (ℚ × σ)) (sessEval : σ → β → γ)
    (get_batches_fn : Nat → ρ → List (β × β) × ρ)
    (test_images : List β) (s0 : σ) (r0 : ρ) (m : String)
    (h : checkDataset = Except.error m ∨
      (checkDataset = Except.ok () ∧ downloadModel = Except.error m)) :
    run checkDataset downloadModel sessRun sessEval get_batches_fn test_images s0 r0 =
      ([], Except.error (RunError.config m)) ∧
    optStepCount
      (run checkDataset downloadModel sessRun sessEval get_batches_fn test_images s0 r0).1
      = 0 := by
  rcases h with h | ⟨h1, h2⟩
  · subst h; exact ⟨rfl, rfl⟩
  · subst h1; subst h2; exact ⟨rfl, rfl⟩

/-- Witness for C6: a failing dataset check on an otherwise healthy run. -/
theorem C6_config_errors_abort_before_training_witness :
    ((Except.error "missing data_road directory" : Except String Unit) =
        Except.error "missing data_road directory" ∨
      ((Except.error "missing data_road directory" : Except String Unit) = Except.ok () ∧
        (Except.ok () : Except String Unit) = Except.error "missing data_road directory")) ∧
    (run (Except.error "missing data_road directory") (Except.ok ())
        demoOkRun demoEval demoBatches4 [[5]] 0 0 =
      ([], Except.error (RunError.config "missing data_road directory")) ∧
    optStepCount (run (Except.error "missing data_road directory") (Except.ok ())
        demoOkRun demoEval demoBatches4 [[5]] 0 0).1 = 0) :=
  ⟨Or.inl rfl,
    C6_config_errors_abort_before_training (Except.error "missing data_road directory")
      (Except.ok ()) demoOkRun demoEval demoBatches4 [[5]] 0 0
      "missing data_road directory" (Or.inl rfl)⟩

/-- C7: once training completes with final session state `s`, the rest of
`run` is read-only on the model parameters: no further optimization step is
performed (the run's trace is exactly the training trace), every inference
forward pass evaluates the logits against that same state `s`, and `s` is
returned unchanged as the final parameter state. -/
theorem C7_inference_reads_trained_state {σ ρ β γ ε : Type}
    (sessRun : σ → Feed β → Except ε (ℚ × σ)) (sessEval : σ → β → γ)
    (get_batches_fn : Nat → ρ → List (β × β) × ρ)
    (test_images : List β) (s0 : σ) (r0 : ρ) (s : σ) (r : ρ)
    (ht : (train_nnE sessRun get_batches_fn NUM_EPOCHS BATCH_SIZE s0 r0).2 =
      Except.ok (s, r)) :
    run (Except.ok ()) (Except.ok ()) sessRun sessEval get_batches_fn test_images s0 r0 =
      ((train_nnE sessRun get_batches_fn NUM_EPOCHS BATCH_SIZE s0 r0).1,
        Except.ok (s, test_images.map fun img => sessEval s img)) := by
  simp [run, save_inference_samples_model, ht]

/-- Witness for C7: a full 50-epoch run that completes and then infers. -/
theorem C7_inference_reads_trained_state_witness :
    (train_nnE demoOkRun demoBatches4 NUM_EPOCHS BATCH_SIZE 0 0).2 =
      Except.ok (100, 50) ∧
    run (Except.ok ()) (Except.ok ()) demoOkRun demoEval demoBatches4 [[5], [6]] 0 0 =
      ((train_nnE demoOkRun demoBatches4 NUM_EPOCHS BATCH_SIZE 0 0).1,
        Except.ok (100, [[5], [6]].map fun img => demoEval 100 img)) :=
  ⟨rfl,
    C7_inference_reads_trained_state demoOkRun demoEval demoBatches4
      [[5], [6]] 0 0 100 50 rfl⟩

/-- C2: for every epoch (every fresh shuffle `perm` of the training set
`samples`) and every batch size `b ≥ 1`, the yielded batches partition the
training set: recombining each yielded image batch with its label batch and
concatenating gives a permutation of the full sample set — no sample
duplicated, none omitted — and the yielded batch sizes sum to the
training-set size. -/
theorem C2_batches_partition_training_set {I L : Type} (samples perm : List (I × L))
    (b : Nat) (_hb : 1 ≤ b) (hp : perm.Perm samples) :
    ((get_batches_fn_model perm b).map fun p => p.1.zip p.2).flatten.Perm samples ∧
    ((get_batches_fn_model perm b).map fun p => p.1.length).sum = samples.length := by
  constructor
  · rw [get_batches_fn_model_flatten]; exact hp
  · have h1 : ((get_batches_fn_model perm b).map fun p => p.1.length) =
        (chunkList b perm).map List.length := by
      rw [get_batches_fn_model, List.map_map]
      apply List.map_congr_left
      intro c _
      simp
    rw [h1, ← List.length_flatten, chunkList_join, hp.length_eq]

/-- Witness for C2: a shuffled 4-sample dataset split with batch size 2. -/
theorem C2_batches_partition_training_set_witness :
    (1 ≤ 2 ∧
      ([(2, 12), (0, 10), (3, 13), (1, 11)] : List (Nat × Nat)).Perm
        [(0, 10), (1, 11), (2, 12), (3, 13)]) ∧
    (((get_batches_fn_model [(2, 12), (0, 10), (3, 13), (1, 11)] 2).map
        fun p => p.1.zip p.2).flatten.Perm
          ([(0, 10), (1, 11), (2, 12), (3, 13)] : List (Nat × Nat)) ∧
      ((get_batches_fn_model ([(2, 12), (0, 10), (3, 13), (1, 11)] : List (Nat × Nat)) 2).map
        fun p => p.1.length).sum = ([(0, 10), (1, 11), (2, 12), (3, 13)] : List (Nat × Nat)).length) :=
  ⟨⟨by decide, by decide⟩,
    C2_batches_partition_training_set [(0, 10), (1, 11), (2, 12), (3, 13)]
      [(2, 12), (0, 10), (3, 13), (1, 11)] 2 (by decide) (by decide)⟩

/-- C9: both skip-connection additions built by `layers` are well-shaped:
under the VGG backbone shape relations — layer 4 at twice the spatial size of
layer 7 and layer 3 at twice the spatial size of layer 4, with a common batch
dimension — each transpose convolution feeding an add has its filter count set
to the skip source's channel count and stride 2 with SAME padding, so the
`tf.add` shape precondition holds at both skip connections and `layers`
produces an output at 8 times the layer-3 spatial size with `num_classes`
channels. -/
theorem C9_skip_additions_wellshaped (l3 l4 l7 : TensorShape) (k : Nat)
    (h4n : l4.n = l7.n) (h4h : l4.h = l7.h * 2) (h4w : l4.w = l7.w * 2)
    (h3n : l3.n = l7.n) (h3h : l3.h = l4.h * 2) (h3w : l3.w = l4.w * 2) :
    layersShape l3 l4 l7 k =
      some { n := l7.n, h := l3.h * 8, w := l3.w * 8, c := k } := by
  obtain ⟨n3, hh3, ww3, c3⟩ := l3
  obtain ⟨n4, hh4, ww4, c4⟩ := l4
  obtain ⟨n7, hh7, ww7, c7⟩ := l7
  simp_all [layersShape, conv2dShape, conv2dTransposeShape, addShape]

/-- Witness for C9: the KITTI shapes (160 x 576 input, so layer 7 at 5 x 18,
layer 4 at 10 x 36, layer 3 at 20 x 72) with 2 classes. -/
theorem C9_skip_additions_wellshaped_witness :
    ((⟨1, 10, 36, 512⟩ : TensorShape).n = (⟨1, 5, 18, 4096⟩ : TensorShape).n ∧
      (⟨1, 10, 36, 512⟩ : TensorShape).h = (⟨1, 5, 18, 4096⟩ : TensorShape).h * 2 ∧
      (⟨1, 10, 36, 512⟩ : TensorShape).w = (⟨1, 5, 18, 4096⟩ : TensorShape).w * 2 ∧
      (⟨1, 20, 72, 256⟩ : TensorShape).n = (⟨1, 5, 18, 4096⟩ : TensorShape).n ∧
      (⟨1, 20, 72, 256⟩ : TensorShape).h = (⟨1, 10, 36, 512⟩ : TensorShape).h * 2 ∧
      (⟨1, 20, 72, 256⟩ : TensorShape).w = (⟨1, 10, 36, 512⟩ : TensorShape).w * 2) ∧
    layersShape ⟨1, 20, 72, 256⟩ ⟨1, 10, 36, 512⟩ ⟨1, 5, 18, 4096⟩ 2 =
      some ⟨1, 160, 576, 2⟩ :=
  ⟨⟨rfl, rfl, rfl, rfl, rfl, rfl⟩,
    C9_skip_additions_wellshaped ⟨1, 20, 72, 256⟩ ⟨1, 10, 36, 512⟩ ⟨1, 5, 18, 4096⟩ 2
      rfl rfl rfl rfl rfl rfl⟩

end CarND
